import Mathlib

/-!
Verification of the ReviewHunter lead-scoring core (src/app.py).

The embedding covers the pure computation of the app:
* the industry weight table `BRANCH_FACTORS`,
* the review aggregator `analyze_reviews_outscraper`,
* the scorer `calculate_lead_score` (factors 1-4, raw score, weighted
  rounded final score),
* the pain-flag computation `get_pain_flags`,
* the score category `get_score_category`.

Modelling conventions:
* Python floats are IEEE-754 doubles, modelled by their exact rational
  values. A decimal literal such as 1.3 denotes the double nearest to
  it, so the `BRANCH_FACTORS` table below holds the exact dyadic values
  of the doubles the source stores (1.25 and 1.0 are exact; the others
  are not). Comparison thresholds such as 3.5 or 1.2 appear only in
  order comparisons whose outcome is the same for the double values and
  their decimal readings on every reachable operand, so they are kept
  as decimals.
* The one float *operation* in the scoring path, the product
  `raw_score * branch_factor`, is a double multiplication: the exact
  product (the int `raw_score` is exact in double) rounded to a 53-bit
  significand, nearest-even. `floatRound53` below models that rounding;
  no reachable product comes near overflow or subnormals.
* Python `round` is round-half-to-even (banker's rounding) of the exact
  value of its float argument; it is modelled exactly by `pyRound`
  below.
* In `src/app.py` an absent business rating reaches `calculate_lead_score`
  and `get_pain_flags` as the falsy value `0` (the call sites pass
  `business.get("rating", 0)`), and both functions test the rating with
  Python truthiness (`if rating:`). Hence "rating absent" is modelled as
  `rating = 0` and "rating present" as `rating ≠ 0`.
* A review record keeps exactly the information the aggregator reads:
  the truthiness of `owner_response`/`response_text`, the stored
  `review_rating` (with `none` for an absent key or a stored falsy value,
  both of which fail the code's truthiness test), and the number of whole
  days elapsed from "now" to the review timestamp as produced by
  `datetime.fromisoformat` and timedelta `.days` (`none` when the date
  field is absent, not a string, or unparseable: the code catches the
  parse exception and skips the record for recency purposes).
-/

/-- Python's `round` on an exact rational: round half to even. -/
def pyRound (q : ℚ) : ℤ :=
  if Int.fract q < 1/2 then ⌊q⌋
  else if 1/2 < Int.fract q then ⌊q⌋ + 1
  else if ⌊q⌋ % 2 = 0 then ⌊q⌋ else ⌊q⌋ + 1

/-- IEEE-754 double multiplication result for an exact rational product:
round to a 53-bit significand, nearest ties-to-even (normal range only,
which covers every product this program forms). The value is scaled into
[2^52, 2^53), rounded to an integer half-to-even, and scaled back. -/
def floatRound53 (q : ℚ) : ℚ :=
  if q = 0 then 0
  else (pyRound (q / 2 ^ (Int.log 2 |q| - 52)) : ℚ) * 2 ^ (Int.log 2 |q| - 52)

/-- The industry weight table of src/app.py (lines 20-36). Each entry is
the exact rational value of the IEEE double denoted by the source's
decimal literal: 1.25 and 1.0 are exact dyadics; 1.3, 1.1, 0.95, 0.9 and
0.8 are the nearest doubles (e.g. the double written 1.3 is
5854679515581645 / 2^52, slightly above 13/10). -/
def BRANCH_FACTORS : List (String × ℚ) :=
  [("Zahnarzt", 5854679515581645/4503599627370496),
   ("Arzt", 5854679515581645/4503599627370496),
   ("Anwalt", 5/4),
   ("Steuerberater", 5/4),
   ("Restaurant", 2476979795053773/2251799813685248),
   ("Hotel", 2476979795053773/2251799813685248),
   ("Café", 2476979795053773/2251799813685248),
   ("Fitness", 1),
   ("Physiotherapie", 1),
   ("Friseur", 1),
   ("Kosmetik", 1),
   ("Handwerker", 8106479329266893/9007199254740992),
   ("Autohaus", 4278419646001971/4503599627370496),
   ("Imbiss", 3602879701896397/4503599627370496),
   ("Kiosk", 3602879701896397/4503599627370496)]

/-- One review record, as read by `analyze_reviews_outscraper`. -/
structure ReviewRecord where
  /-- Truthiness of `review.get("owner_response") or review.get("response_text")`. -/
  owner_response : Bool
  /-- The stored `review_rating`; `none` for an absent key (the code then
  substitutes the default 5, which is never negative) or a stored falsy
  value (which fails the `if rating` test). -/
  review_rating : Option ℕ
  /-- Whole days elapsed from now to the review timestamp
  (`(now - review_date).days`); `none` when the date field is absent, not
  a string, or `datetime.fromisoformat` raises. -/
  review_days_ago : Option ℤ
deriving Repr, DecidableEq

/-- The dictionary returned by `analyze_reviews_outscraper`. -/
structure Analysis where
  total : ℕ
  answered : ℕ
  unanswered : ℕ
  unanswered_pct : ℚ
  last_negative_days : ℤ
deriving Repr, DecidableEq

/-- The negativity test of src/app.py line 189-190:
`rating = review.get("review_rating", 5); if rating and rating <= 3`. -/
def isNegative (r : ReviewRecord) : Bool :=
  let rating := r.review_rating.getD 5
  rating != 0 && rating ≤ 3

/-- One step of the `last_negative_days` accumulation (lines 188-200):
for a negative review with a parsed date, keep the smaller day count. -/
def negUpdate (acc : ℤ) (r : ReviewRecord) : ℤ :=
  if isNegative r then
    match r.review_days_ago with
    | some days_ago => if days_ago < acc then days_ago else acc
    | none => acc
  else acc

/-- `analyze_reviews_outscraper` of src/app.py lines 161-211. -/
def analyze_reviews_outscraper (reviews : List ReviewRecord) : Analysis :=
  if reviews.isEmpty then
    { total := 0, answered := 0, unanswered := 0,
      unanswered_pct := 100, last_negative_days := 999 }
  else
    let total := reviews.length
    let answered := reviews.countP (fun r => r.owner_response)
    let last_negative_days := reviews.foldl negUpdate 999
    let unanswered := total - answered
    let unanswered_pct : ℚ :=
      if 0 < total then (unanswered : ℚ) / (total : ℚ) * 100 else 0
    { total := total, answered := answered, unanswered := unanswered,
      unanswered_pct := unanswered_pct, last_negative_days := last_negative_days }

/-- Faktor 1: Antwortverhalten (src/app.py lines 220-231). -/
def faktor1_antwort (unanswered_pct : ℚ) : ℕ :=
  if unanswered_pct = 0 then 0
  else if unanswered_pct ≤ 25 then 10
  else if unanswered_pct ≤ 50 then 20
  else if unanswered_pct ≤ 75 then 28
  else 35

/-- Faktor 2: Rating-Problem (src/app.py lines 233-250), including the
low-volume halving `if review_count < 10: f2 = int(f2 * 0.5)`; for these
non-negative integers `int(f2 * 0.5)` is truncation, i.e. division by 2. -/
def faktor2_rating (rating : ℚ) (review_count : ℕ) : ℕ :=
  let f2 : ℕ :=
    if rating ≠ 0 then
      if rating < 3 then 25
      else if rating < 7/2 then 20
      else if rating < 4 then 15
      else if rating < 9/2 then 8
      else 0
    else 12
  if review_count < 10 then f2 / 2 else f2

/-- Faktor 3: Volumen (src/app.py lines 252-263). -/
def faktor3_volumen (review_count : ℕ) : ℕ :=
  if review_count ≥ 100 then 20
  else if review_count ≥ 31 then 15
  else if review_count ≥ 10 then 10
  else if review_count ≥ 5 then 5
  else 0

/-- Faktor 4: Aktualität (src/app.py lines 265-274). -/
def faktor4_aktualitaet (last_negative_days : ℤ) : ℕ :=
  if last_negative_days ≤ 7 then 10
  else if last_negative_days ≤ 30 then 7
  else if last_negative_days ≤ 90 then 4
  else 0

/-- The breakdown dictionary returned by `calculate_lead_score`. -/
structure Breakdown where
  antwort : ℕ
  rating : ℕ
  volumen : ℕ
  aktualitaet : ℕ
  raw : ℕ
  factor : ℚ
  final : ℤ
deriving Repr, DecidableEq

/-- `calculate_lead_score` of src/app.py lines 214-290. -/
def calculate_lead_score (rating : ℚ) (review_count : ℕ) (unanswered_pct : ℚ)
    (last_negative_days : ℤ) (branche : String) : ℤ × Breakdown :=
  let f1 := faktor1_antwort unanswered_pct
  let f2 := faktor2_rating rating review_count
  let f3 := faktor3_volumen review_count
  let f4 := faktor4_aktualitaet last_negative_days
  let raw_score := f1 + f2 + f3 + f4
  let branch_factor := (BRANCH_FACTORS.lookup branche).getD 1
  let final_score := pyRound (floatRound53 ((raw_score : ℚ) * branch_factor))
  (final_score,
   { antwort := f1, rating := f2, volumen := f3, aktualitaet := f4,
     raw := raw_score, factor := branch_factor, final := final_score })

/-- `get_pain_flags` of src/app.py lines 293-310. -/
def get_pain_flags (rating : ℚ) (unanswered_pct : ℚ) (branch_factor : ℚ)
    (review_count : ℕ) : List String :=
  let flags : List String := []
  let flags := if rating ≠ 0 ∧ rating < 4 then flags ++ ["🚨"] else flags
  let flags := if unanswered_pct > 50 then flags ++ ["⏰"] else flags
  let flags := if branch_factor ≥ 12/10 then flags ++ ["💰"] else flags
  let flags := if review_count ≥ 50 then flags ++ ["📊"] else flags
  flags

/-- `get_score_category` of src/app.py lines 313-321. -/
def get_score_category (score : ℤ) : String × String :=
  if score ≥ 70 then ("🔥 Hot", "score-hot")
  else if score ≥ 50 then ("🟡 Warm", "score-warm")
  else if score ≥ 30 then ("🔵 Cold", "score-cold")
  else ("⚪ Low", "score-none")

/-- The elapsed-day values of the negative reviews with a parsed
timestamp, in order: exactly the values the recency loop compares. -/
def parsedNegativeDays (reviews : List ReviewRecord) : List ℤ :=
  reviews.filterMap (fun r => if isNegative r then r.review_days_ago else none)

/-! ### Helper lemmas about `pyRound` -/

lemma pyRound_ge_floor (q : ℚ) : ⌊q⌋ ≤ pyRound q := by
  unfold pyRound; split_ifs <;> omega

lemma pyRound_le_floor_add_one (q : ℚ) : pyRound q ≤ ⌊q⌋ + 1 := by
  unfold pyRound; split_ifs <;> omega

lemma pyRound_intCast (n : ℤ) : pyRound (n : ℚ) = n := by
  unfold pyRound
  rw [Int.fract_intCast, Int.floor_intCast]
  norm_num

lemma pyRound_mono {x y : ℚ} (h : x ≤ y) : pyRound x ≤ pyRound y := by
  have hf : ⌊x⌋ ≤ ⌊y⌋ := Int.floor_le_floor h
  rcases lt_or_eq_of_le hf with hlt | heq
  · calc pyRound x ≤ ⌊x⌋ + 1 := pyRound_le_floor_add_one x
      _ ≤ ⌊y⌋ := by omega
      _ ≤ pyRound y := pyRound_ge_floor y
  · have hfr : Int.fract x ≤ Int.fract y := by
      have hx := Int.self_sub_fract x
      have hy := Int.self_sub_fract y
      have : ((⌊x⌋ : ℚ)) = ((⌊y⌋ : ℚ)) := by exact_mod_cast congrArg (fun n : ℤ => n) heq
      linarith
    unfold pyRound
    split_ifs <;> first | omega | (exfalso; linarith)

lemma pyRound_nonneg {q : ℚ} (h : 0 ≤ q) : 0 ≤ pyRound q :=
  le_trans (Int.floor_nonneg.mpr h) (pyRound_ge_floor q)

lemma abs_pyRound_sub_le (q : ℚ) : |(pyRound q : ℚ) - q| ≤ 1/2 := by
  have hfl : (⌊q⌋ : ℚ) = q - Int.fract q := by
    have := Int.self_sub_fract q; linarith
  have h1 : 0 ≤ Int.fract q := Int.fract_nonneg q
  have h2 : Int.fract q < 1 := Int.fract_lt_one q
  unfold pyRound
  split_ifs <;> rw [abs_le] <;> push_cast <;> constructor <;> linarith

/-! ### Helper lemmas about `floatRound53` -/

lemma int_log_eq_of_bounds {q : ℚ} {E : ℤ} (hq : 0 < q)
    (hlow : (2:ℚ) ^ E ≤ q) (hhigh : q < (2:ℚ) ^ (E + 1)) :
    Int.log 2 q = E := by
  have h1 : E ≤ Int.log 2 q := by
    apply (Int.zpow_le_iff_le_log one_lt_two hq).mp
    simpa using hlow
  have h2 : Int.log 2 q < E + 1 := by
    apply (Int.lt_zpow_iff_log_lt one_lt_two hq).mp
    simpa using hhigh
  omega

lemma floatRound53_pos_eq {q : ℚ} (hq : 0 < q) :
    floatRound53 q
      = (pyRound (q / 2 ^ (Int.log 2 q - 52)) : ℚ) * 2 ^ (Int.log 2 q - 52) := by
  unfold floatRound53
  rw [if_neg hq.ne', abs_of_pos hq]

lemma floatRound53_eval {q : ℚ} {E : ℤ} (hq : 0 < q)
    (hlow : (2:ℚ) ^ E ≤ q) (hhigh : q < (2:ℚ) ^ (E + 1)) :
    floatRound53 q = (pyRound (q / 2 ^ (E - 52)) : ℚ) * 2 ^ (E - 52) := by
  rw [floatRound53_pos_eq hq, int_log_eq_of_bounds hq hlow hhigh]

lemma floatRound53_nonneg {q : ℚ} (hq : 0 ≤ q) : 0 ≤ floatRound53 q := by
  rcases eq_or_lt_of_le hq with h | h
  · rw [← h]
    norm_num [floatRound53]
  · rw [floatRound53_pos_eq h]
    have he : (0:ℚ) < 2 ^ (Int.log 2 q - 52) := zpow_pos (by norm_num) _
    have hp : 0 ≤ pyRound (q / 2 ^ (Int.log 2 q - 52)) :=
      pyRound_nonneg (div_nonneg h.le he.le)
    exact mul_nonneg (by exact_mod_cast hp) he.le

lemma abs_floatRound53_sub_le {q : ℚ} (hq : 0 < q) :
    |floatRound53 q - q| ≤ 2 ^ (Int.log 2 q - 53) := by
  have he : (0:ℚ) < 2 ^ (Int.log 2 q - 52) := zpow_pos (by norm_num) _
  have habs := abs_pyRound_sub_le (q / 2 ^ (Int.log 2 q - 52))
  rw [floatRound53_pos_eq hq]
  have hrw : (pyRound (q / 2 ^ (Int.log 2 q - 52)) : ℚ) * 2 ^ (Int.log 2 q - 52) - q
      = ((pyRound (q / 2 ^ (Int.log 2 q - 52)) : ℚ) - q / 2 ^ (Int.log 2 q - 52))
        * 2 ^ (Int.log 2 q - 52) := by
    rw [sub_mul, div_mul_cancel₀ _ he.ne']
  rw [hrw, abs_mul, abs_of_pos he]
  calc |(pyRound (q / 2 ^ (Int.log 2 q - 52)) : ℚ) - q / 2 ^ (Int.log 2 q - 52)|
        * 2 ^ (Int.log 2 q - 52)
      ≤ (1/2) * 2 ^ (Int.log 2 q - 52) :=
        mul_le_mul_of_nonneg_right habs he.le
    _ = 2 ^ (Int.log 2 q - 53) := by
        have h53 : Int.log 2 q - 53 = (Int.log 2 q - 52) + (-1) := by omega
        rw [h53, zpow_add₀ (by norm_num : (2:ℚ) ≠ 0), zpow_neg_one]
        ring

lemma floatRound53_le_zpow {q : ℚ} (hq : 0 < q) :
    floatRound53 q ≤ 2 ^ (Int.log 2 q + 1) := by
  have he : (0:ℚ) < 2 ^ (Int.log 2 q - 52) := zpow_pos (by norm_num) _
  have hhigh : q < (2:ℚ) ^ (Int.log 2 q + 1) := by
    simpa using Int.lt_zpow_succ_log_self (b := 2) one_lt_two q
  rw [floatRound53_pos_eq hq]
  have ht : q / 2 ^ (Int.log 2 q - 52) < (2:ℚ) ^ (53:ℤ) := by
    rw [div_lt_iff he]
    calc q < 2 ^ (Int.log 2 q + 1) := hhigh
      _ = (2:ℚ) ^ (53:ℤ) * 2 ^ (Int.log 2 q - 52) := by
          rw [← zpow_add₀ (by norm_num : (2:ℚ) ≠ 0)]
          congr 1
          omega
  have hple : pyRound (q / 2 ^ (Int.log 2 q - 52)) ≤ 2 ^ (53:ℕ) := by
    have hfl : ⌊q / 2 ^ (Int.log 2 q - 52)⌋ < 2 ^ (53:ℕ) := by
      rw [Int.floor_lt]
      calc q / 2 ^ (Int.log 2 q - 52) < (2:ℚ) ^ (53:ℤ) := ht
        _ = ((2 ^ (53:ℕ) : ℤ) : ℚ) := by push_cast; norm_num
    have := pyRound_le_floor_add_one (q / 2 ^ (Int.log 2 q - 52))
    omega
  calc (pyRound (q / 2 ^ (Int.log 2 q - 52)) : ℚ) * 2 ^ (Int.log 2 q - 52)
      ≤ ((2 ^ (53:ℕ) : ℤ) : ℚ) * 2 ^ (Int.log 2 q - 52) :=
        mul_le_mul_of_nonneg_right (by exact_mod_cast hple) he.le
    _ = 2 ^ (Int.log 2 q + 1) := by
        rw [show ((2 ^ (53:ℕ) : ℤ) : ℚ) = (2:ℚ) ^ (53:ℤ) by push_cast; norm_num,
          ← zpow_add₀ (by norm_num : (2:ℚ) ≠ 0)]
        congr 1
        omega

lemma zpow_le_floatRound53 {q : ℚ} (hq : 0 < q) :
    2 ^ (Int.log 2 q) ≤ floatRound53 q := by
  have he : (0:ℚ) < 2 ^ (Int.log 2 q - 52) := zpow_pos (by norm_num) _
  have hlow : (2:ℚ) ^ (Int.log 2 q) ≤ q := by
    simpa using Int.zpow_log_le_self (b := 2) one_lt_two hq
  rw [floatRound53_pos_eq hq]
  have ht : (2:ℚ) ^ (52:ℤ) ≤ q / 2 ^ (Int.log 2 q - 52) := by
    rw [le_div_iff he, ← zpow_add₀ (by norm_num : (2:ℚ) ≠ 0)]
    calc (2:ℚ) ^ ((52:ℤ) + (Int.log 2 q - 52)) = 2 ^ (Int.log 2 q) := by
          congr 1
          omega
      _ ≤ q := hlow
  have hple : ((2 ^ (52:ℕ) : ℤ)) ≤ pyRound (q / 2 ^ (Int.log 2 q - 52)) := by
    have hfl : ((2 ^ (52:ℕ) : ℤ)) ≤ ⌊q / 2 ^ (Int.log 2 q - 52)⌋ := by
      rw [Int.le_floor]
      calc ((2 ^ (52:ℕ) : ℤ) : ℚ) = (2:ℚ) ^ (52:ℤ) := by push_cast; norm_num
        _ ≤ q / 2 ^ (Int.log 2 q - 52) := ht
    have := pyRound_ge_floor (q / 2 ^ (Int.log 2 q - 52))
    omega
  calc (2:ℚ) ^ (Int.log 2 q)
      = ((2 ^ (52:ℕ) : ℤ) : ℚ) * 2 ^ (Int.log 2 q - 52) := by
        rw [show ((2 ^ (52:ℕ) : ℤ) : ℚ) = (2:ℚ) ^ (52:ℤ) by push_cast; norm_num,
          ← zpow_add₀ (by norm_num : (2:ℚ) ≠ 0)]
        congr 1
        omega
    _ ≤ (pyRound (q / 2 ^ (Int.log 2 q - 52)) : ℚ) * 2 ^ (Int.log 2 q - 52) :=
        mul_le_mul_of_nonneg_right (by exact_mod_cast hple) he.le

lemma floatRound53_mono {x y : ℚ} (hx : 0 ≤ x) (hxy : x ≤ y) :
    floatRound53 x ≤ floatRound53 y := by
  rcases eq_or_lt_of_le hx with h0 | h0
  · rw [← h0]
    have h1 : floatRound53 0 = 0 := by norm_num [floatRound53]
    rw [h1]
    exact floatRound53_nonneg (hx.trans hxy)
  · have hy : (0:ℚ) < y := lt_of_lt_of_le h0 hxy
    have hElog : Int.log 2 x ≤ Int.log 2 y := Int.log_mono_right h0 hxy
    rcases eq_or_lt_of_le hElog with hE | hE
    · rw [floatRound53_pos_eq h0, floatRound53_pos_eq hy, ← hE]
      have he : (0:ℚ) < 2 ^ (Int.log 2 x - 52) := zpow_pos (by norm_num) _
      apply mul_le_mul_of_nonneg_right _ he.le
      have hdiv : x / 2 ^ (Int.log 2 x - 52) ≤ y / 2 ^ (Int.log 2 x - 52) := by
        gcongr
      exact_mod_cast pyRound_mono hdiv
    · calc floatRound53 x ≤ 2 ^ (Int.log 2 x + 1) := floatRound53_le_zpow h0
        _ ≤ 2 ^ (Int.log 2 y) := zpow_le_zpow_right₀ (by norm_num) (by omega)
        _ ≤ floatRound53 y := zpow_le_floatRound53 hy

/-! ### Helper lemmas about list lookup and the minimum fold -/

lemma lookup_getD_bounds (lo hi : ℚ) (hlo : lo ≤ 1) (hhi : 1 ≤ hi)
    (l : List (String × ℚ)) (h : ∀ p ∈ l, lo ≤ p.2 ∧ p.2 ≤ hi) (s : String) :
    lo ≤ (l.lookup s).getD 1 ∧ (l.lookup s).getD 1 ≤ hi := by
  induction l with
  | nil => simpa using ⟨hlo, hhi⟩
  | cons p t ih =>
    rw [List.lookup]
    cases hpk : (s == p.1) with
    | true =>
      simpa using h p (by simp)
    | false =>
      exact ih (fun x hx => h x (List.mem_cons_of_mem p hx))

lemma foldl_min_le_init (l : List ℤ) (a : ℤ) : l.foldl min a ≤ a := by
  induction l generalizing a with
  | nil => simp
  | cons d t ih =>
    calc (d :: t).foldl min a = t.foldl min (min a d) := rfl
      _ ≤ min a d := ih (min a d)
      _ ≤ a := min_le_left a d

lemma foldl_min_le_mem {l : List ℤ} {d : ℤ} (hd : d ∈ l) (a : ℤ) :
    l.foldl min a ≤ d := by
  induction l generalizing a with
  | nil => simp at hd
  | cons e t ih =>
    rcases List.mem_cons.mp hd with rfl | hmem
    · calc (d :: t).foldl min a = t.foldl min (min a d) := rfl
        _ ≤ min a d := foldl_min_le_init t (min a d)
        _ ≤ d := min_le_right a d
    · exact ih hmem (min a e)

lemma foldl_min_eq_or_mem (l : List ℤ) (a : ℤ) :
    l.foldl min a = a ∨ l.foldl min a ∈ l := by
  induction l generalizing a with
  | nil => left; rfl
  | cons d t ih =>
    rcases ih (min a d) with h | h
    · rcases min_cases a d with ⟨hm, _⟩ | ⟨hm, _⟩
      · left; rw [List.foldl_cons, h, hm]
      · right; rw [List.foldl_cons, h, hm]; exact List.mem_cons_self d t
    · right; exact List.mem_cons_of_mem d h

/-! ### The recency fold computes a clamped minimum -/

lemma negUpdate_of_none (acc : ℤ) (r : ReviewRecord)
    (h : (if isNegative r then r.review_days_ago else none) = none) :
    negUpdate acc r = acc := by
  unfold negUpdate
  cases hneg : isNegative r with
  | false => simp
  | true =>
    rw [hneg, if_pos rfl] at h
    simp [h]

lemma negUpdate_of_some (acc : ℤ) (r : ReviewRecord) (d : ℤ)
    (h : (if isNegative r then r.review_days_ago else none) = some d) :
    negUpdate acc r = min acc d := by
  unfold negUpdate
  cases hneg : isNegative r with
  | false => rw [hneg, if_neg (by simp)] at h; exact absurd h (by simp)
  | true =>
    rw [hneg, if_pos rfl] at h
    rw [h]
    simp only [if_true]
    rcases lt_or_le d acc with hlt | hle
    · rw [if_pos hlt, min_eq_right hlt.le]
    · rw [if_neg (not_lt.mpr hle), min_eq_left hle]

lemma foldl_negUpdate_eq (l : List ReviewRecord) (a : ℤ) :
    l.foldl negUpdate a = (parsedNegativeDays l).foldl min a := by
  induction l generalizing a with
  | nil => rfl
  | cons r t ih =>
    rw [List.foldl_cons]
    show List.foldl negUpdate (negUpdate a r) t =
      (List.filterMap (fun r => if isNegative r then r.review_days_ago else none)
        (r :: t)).foldl min a
    rw [List.filterMap_cons]
    cases hneg : (if isNegative r then r.review_days_ago else none) with
    | none => rw [negUpdate_of_none a r hneg]; exact ih a
    | some d => rw [negUpdate_of_some a r d hneg, List.foldl_cons]; exact ih (min a d)

lemma analyze_last (reviews : List ReviewRecord) :
    (analyze_reviews_outscraper reviews).last_negative_days =
      reviews.foldl negUpdate 999 := by
  cases reviews with
  | nil => rfl
  | cons r t => rfl

/-! ### Claim C5: score category bands -/

/-- C5: `get_score_category` returns Hot exactly for scores ≥ 70, Warm
exactly for [50,70), Cold exactly for [30,50), and the Low/None label
exactly for scores < 30; each band is inclusive on its lower end. -/
theorem c5_category_bands (score : ℤ) :
    (get_score_category score = ("🔥 Hot", "score-hot") ↔ 70 ≤ score) ∧
    (get_score_category score = ("🟡 Warm", "score-warm") ↔ 50 ≤ score ∧ score < 70) ∧
    (get_score_category score = ("🔵 Cold", "score-cold") ↔ 30 ≤ score ∧ score < 50) ∧
    (get_score_category score = ("⚪ Low", "score-none") ↔ score < 30) := by
  unfold get_score_category
  split_ifs with h1 h2 h3 <;>
    refine ⟨?_, ?_, ?_, ?_⟩ <;> constructor <;> intro h <;>
    first
      | rfl
      | omega
      | (exfalso; revert h; decide)

/-! ### Claim C6: empty review sequence -/

/-- C6: on the empty review sequence the aggregator returns total 0,
answered 0, unanswered percentage 100, and the last-negative-days
sentinel 999, which is older than 90 days and therefore contributes a
zero recency factor (Faktor 4) to every score computed from it. -/
theorem c6_empty_reviews :
    analyze_reviews_outscraper [] =
      { total := 0, answered := 0, unanswered := 0,
        unanswered_pct := 100, last_negative_days := 999 } ∧
    (90 : ℤ) < 999 ∧
    (∀ (rating : ℚ) (review_count : ℕ) (unanswered_pct : ℚ) (branche : String),
      (calculate_lead_score rating review_count unanswered_pct 999 branche).2.aktualitaet
        = 0) := by
  refine ⟨rfl, by norm_num, fun rating review_count unanswered_pct branche => ?_⟩
  show faktor4_aktualitaet 999 = 0
  norm_num [faktor4_aktualitaet]

/-! ### Claim C7: pain flags -/

/-- C7: each pain flag is present exactly when its condition holds, the
four conditions are evaluated independently (each membership is
equivalent to its own condition, whatever the other inputs), and all
four flags can co-occur. The reputation-risk condition reads
"rating present and < 4.0", where an absent rating reaches the function
as the falsy value 0. -/
theorem c7_pain_flags (rating unanswered_pct branch_factor : ℚ) (review_count : ℕ) :
    ("🚨" ∈ get_pain_flags rating unanswered_pct branch_factor review_count
      ↔ rating ≠ 0 ∧ rating < 4) ∧
    ("⏰" ∈ get_pain_flags rating unanswered_pct branch_factor review_count
      ↔ 50 < unanswered_pct) ∧
    ("💰" ∈ get_pain_flags rating unanswered_pct branch_factor review_count
      ↔ 12/10 ≤ branch_factor) ∧
    ("📊" ∈ get_pain_flags rating unanswered_pct branch_factor review_count
      ↔ 50 ≤ review_count) ∧
    get_pain_flags 3 60 (13/10) 100 = ["🚨", "⏰", "💰", "📊"] := by
  have e1 : ("🚨" : String) ≠ "⏰" := by decide
  have e2 : ("🚨" : String) ≠ "💰" := by decide
  have e3 : ("🚨" : String) ≠ "📊" := by decide
  have e4 : ("⏰" : String) ≠ "💰" := by decide
  have e5 : ("⏰" : String) ≠ "📊" := by decide
  have e6 : ("💰" : String) ≠ "📊" := by decide
  refine ⟨?_, ?_, ?_, ?_, ?_⟩
  · unfold get_pain_flags
    split_ifs with h1 h2 h3 h4 <;>
      simp_all [List.mem_append, List.mem_singleton]
  · unfold get_pain_flags
    split_ifs with h1 h2 h3 h4 <;>
      simp_all [List.mem_append, List.mem_singleton, e1.symm]
  · unfold get_pain_flags
    split_ifs with h1 h2 h3 h4 <;>
      simp_all [List.mem_append, List.mem_singleton, e2.symm, e4.symm]
  · unfold get_pain_flags
    split_ifs with h1 h2 h3 h4 <;>
      simp_all [List.mem_append, List.mem_singleton, e3.symm, e5.symm, e6.symm]
  · unfold get_pain_flags
    norm_num

/-! ### Claim C1: the rating factor (Faktor 2) -/

/-- C1: the rating factor of `calculate_lead_score` is 25 for a present
rating < 3.0, 20 on [3.0,3.5), 15 on [3.5,4.0), 8 on [4.0,4.5), 0 for
ratings ≥ 4.5, and 12 when the rating is absent (an absent rating
reaches the function as the falsy value 0); whenever review_count < 10
the factor is halved with truncation toward zero (division by 2 on these
non-negative integers). -/
theorem c1_rating_factor (rating : ℚ) (review_count : ℕ) (unanswered_pct : ℚ)
    (last_negative_days : ℤ) (branche : String) :
    (rating = 0 →
      (calculate_lead_score rating review_count unanswered_pct
        last_negative_days branche).2.rating
        = if review_count < 10 then 12 / 2 else 12) ∧
    (rating ≠ 0 →
      (rating < 3 →
        (calculate_lead_score rating review_count unanswered_pct
          last_negative_days branche).2.rating
          = if review_count < 10 then 25 / 2 else 25) ∧
      (3 ≤ rating → rating < 7/2 →
        (calculate_lead_score rating review_count unanswered_pct
          last_negative_days branche).2.rating
          = if review_count < 10 then 20 / 2 else 20) ∧
      (7/2 ≤ rating → rating < 4 →
        (calculate_lead_score rating review_count unanswered_pct
          last_negative_days branche).2.rating
          = if review_count < 10 then 15 / 2 else 15) ∧
      (4 ≤ rating → rating < 9/2 →
        (calculate_lead_score rating review_count unanswered_pct
          last_negative_days branche).2.rating
          = if review_count < 10 then 8 / 2 else 8) ∧
      (9/2 ≤ rating →
        (calculate_lead_score rating review_count unanswered_pct
          last_negative_days branche).2.rating
          = if review_count < 10 then 0 / 2 else 0)) := by
  have key : (calculate_lead_score rating review_count unanswered_pct
      last_negative_days branche).2.rating = faktor2_rating rating review_count := rfl
  rw [key]
  refine ⟨fun h0 => ?_,
    fun hne => ⟨fun h1 => ?_, fun h2a h2b => ?_, fun h3a h3b => ?_,
      fun h4a h4b => ?_, fun h5 => ?_⟩⟩
  · simp [faktor2_rating, h0]
  · simp [faktor2_rating, hne, h1]
  · simp [faktor2_rating, hne, h2b, not_lt.mpr h2a]
  · simp [faktor2_rating, hne, h3b, not_lt.mpr h3a, not_lt.mpr (by linarith : (3:ℚ) ≤ rating)]
  · simp [faktor2_rating, hne, h4b, not_lt.mpr h4a,
      not_lt.mpr (by linarith : (3:ℚ) ≤ rating), not_lt.mpr (by linarith : (7:ℚ)/2 ≤ rating)]
  · simp [faktor2_rating, hne, not_lt.mpr h5, not_lt.mpr (by linarith : (3:ℚ) ≤ rating),
      not_lt.mpr (by linarith : (7:ℚ)/2 ≤ rating), not_lt.mpr (by linarith : (4:ℚ) ≤ rating)]

/-- Witness for C1 at rating 3.2 (band [3.0,3.5)) and review_count 45. -/
theorem c1_rating_factor_witness :
    ((16:ℚ)/5 ≠ 0) ∧ (3 ≤ (16:ℚ)/5) ∧ ((16:ℚ)/5 < 7/2) ∧
    (calculate_lead_score (16/5) 45 80 5 "Zahnarzt").2.rating = 20 := by
  refine ⟨by norm_num, by norm_num, by norm_num, ?_⟩
  have h := ((c1_rating_factor (16/5) 45 80 5 "Zahnarzt").2
    (by norm_num)).2.1 (by norm_num) (by norm_num)
  simpa using h

/-! ### Claim C3: raw score, industry weight and rounding -/

lemma faktor1_le_cap (unanswered_pct : ℚ) : faktor1_antwort unanswered_pct ≤ 35 := by
  dsimp only [faktor1_antwort]
  split_ifs <;> omega

lemma faktor2_le_cap (rating : ℚ) (review_count : ℕ) :
    faktor2_rating rating review_count ≤ 25 := by
  dsimp only [faktor2_rating]
  split_ifs <;> omega

lemma faktor3_le_cap (review_count : ℕ) : faktor3_volumen review_count ≤ 20 := by
  dsimp only [faktor3_volumen]
  split_ifs <;> omega

lemma faktor4_le_cap (last_negative_days : ℤ) :
    faktor4_aktualitaet last_negative_days ≤ 10 := by
  dsimp only [faktor4_aktualitaet]
  split_ifs <;> omega

lemma branch_factor_bounds (s : String) :
    3602879701896397/4503599627370496 ≤ ((BRANCH_FACTORS.lookup s).getD 1 : ℚ) ∧
    ((BRANCH_FACTORS.lookup s).getD 1 : ℚ) ≤ 5854679515581645/4503599627370496 := by
  refine lookup_getD_bounds _ _ (by norm_num) (by norm_num) BRANCH_FACTORS ?_ s
  intro p hp
  fin_cases hp <;> norm_num

lemma pyRound_natCast (n : ℕ) : pyRound ((n : ℕ) : ℚ) = (n : ℤ) := by
  have h := pyRound_intCast (n : ℤ)
  rw [Int.cast_natCast] at h
  exact h

/-- A double holding a small natural number is exact: `floatRound53` is
the identity on integers below 2^7 (far below 2^53). -/
lemma floatRound53_natCast (n : ℕ) (hn : n ≤ 127) :
    floatRound53 ((n : ℕ) : ℚ) = ((n : ℕ) : ℚ) := by
  rcases Nat.eq_zero_or_pos n with h0 | h0
  · subst h0
    norm_num [floatRound53]
  · have hq : (0:ℚ) < (n : ℚ) := by exact_mod_cast h0
    have hE2 : Int.log 2 ((n : ℕ) : ℚ) ≤ 6 := by
      have hlt : ((n : ℕ) : ℚ) < ((2:ℕ):ℚ) ^ (7:ℤ) := by
        have h128 : ((2:ℕ):ℚ) ^ (7:ℤ) = 128 := by push_cast; norm_num
        have hn127 : ((n : ℕ) : ℚ) ≤ 127 := by exact_mod_cast hn
        rw [h128]
        linarith
      have := (Int.lt_zpow_iff_log_lt one_lt_two hq).mp hlt
      omega
    have hE1 : (0:ℤ) ≤ Int.log 2 ((n : ℕ) : ℚ) := by
      have hge : ((2:ℕ):ℚ) ^ (0:ℤ) ≤ ((n : ℕ) : ℚ) := by
        have h1 : ((2:ℕ):ℚ) ^ (0:ℤ) = 1 := by push_cast; norm_num
        have hn1 : (1:ℚ) ≤ ((n : ℕ) : ℚ) := by exact_mod_cast h0
        rw [h1]
        exact hn1
      exact (Int.zpow_le_iff_le_log one_lt_two hq).mp hge
    have htn : (((52 - Int.log 2 ((n : ℕ) : ℚ)).toNat : ℕ) : ℤ)
        = 52 - Int.log 2 ((n : ℕ) : ℚ) := Int.toNat_of_nonneg (by omega)
    have hzp : (2:ℚ) ^ ((52 - Int.log 2 ((n : ℕ) : ℚ)).toNat : ℕ)
          * (2:ℚ) ^ (Int.log 2 ((n : ℕ) : ℚ) - 52) = 1 := by
      rw [← zpow_natCast (2:ℚ) ((52 - Int.log 2 ((n : ℕ) : ℚ)).toNat), htn,
        ← zpow_add₀ (by norm_num : (2:ℚ) ≠ 0),
        show 52 - Int.log 2 ((n : ℕ) : ℚ) + (Int.log 2 ((n : ℕ) : ℚ) - 52) = 0 by omega]
      exact zpow_zero 2
    have hsplit : ((n : ℕ) : ℚ) / 2 ^ (Int.log 2 ((n : ℕ) : ℚ) - 52)
        = ((n * 2 ^ ((52 - Int.log 2 ((n : ℕ) : ℚ)).toNat) : ℕ) : ℚ) := by
      rw [div_eq_iff (zpow_pos (by norm_num : (0:ℚ) < 2) _).ne']
      push_cast
      rw [mul_assoc, hzp, mul_one]
    rw [floatRound53_pos_eq hq, hsplit, pyRound_natCast]
    push_cast
    rw [mul_assoc, hzp, mul_one]

/-- Over the factor caps (raw ≤ 90) and the shipped weight range, the
final score (round of the double product) is within 1/2 + 2^-47 of the
exact product raw × weight. -/
lemma pyRound_floatRound53_close {R : ℕ} {w : ℚ} (hR : R ≤ 90)
    (hw1 : 3602879701896397/4503599627370496 ≤ w)
    (hw2 : w ≤ 5854679515581645/4503599627370496) :
    |(pyRound (floatRound53 ((R : ℕ) * w : ℚ)) : ℚ) - ((R : ℕ) : ℚ) * w|
      ≤ 1/2 + 1/140737488355328 := by
  have hwpos : (0:ℚ) < w := lt_of_lt_of_le (by norm_num) hw1
  rcases Nat.eq_zero_or_pos R with h0 | h0
  · subst h0
    push_cast
    rw [zero_mul]
    norm_num [floatRound53, pyRound, Int.fract]
  · have hq : (0:ℚ) < ((R : ℕ) : ℚ) * w := mul_pos (by exact_mod_cast h0) hwpos
    have hq128 : ((R : ℕ) : ℚ) * w < 128 := by
      have hRQ : ((R : ℕ) : ℚ) ≤ 90 := by exact_mod_cast hR
      calc ((R : ℕ) : ℚ) * w ≤ 90 * (5854679515581645/4503599627370496) :=
          mul_le_mul hRQ hw2 hwpos.le (by norm_num)
        _ < 128 := by norm_num
    have hE : Int.log 2 (((R : ℕ) : ℚ) * w) ≤ 6 := by
      have h128 : ((2:ℕ):ℚ) ^ (7:ℤ) = 128 := by push_cast; norm_num
      have hlt : ((R : ℕ) : ℚ) * w < ((2:ℕ):ℚ) ^ (7:ℤ) := by
        rw [h128]
        exact hq128
      have := (Int.lt_zpow_iff_log_lt one_lt_two hq).mp hlt
      omega
    have herr : |floatRound53 (((R : ℕ) : ℚ) * w) - ((R : ℕ) : ℚ) * w|
        ≤ 1/140737488355328 := by
      calc |floatRound53 (((R : ℕ) : ℚ) * w) - ((R : ℕ) : ℚ) * w|
          ≤ 2 ^ (Int.log 2 (((R : ℕ) : ℚ) * w) - 53) := abs_floatRound53_sub_le hq
        _ ≤ (2:ℚ) ^ (-47:ℤ) := zpow_le_zpow_right₀ (by norm_num) (by omega)
        _ = 1/140737488355328 := by norm_num
    calc |(pyRound (floatRound53 (((R : ℕ) : ℚ) * w)) : ℚ) - ((R : ℕ) : ℚ) * w|
        ≤ |(pyRound (floatRound53 (((R : ℕ) : ℚ) * w)) : ℚ)
              - floatRound53 (((R : ℕ) : ℚ) * w)|
            + |floatRound53 (((R : ℕ) : ℚ) * w) - ((R : ℕ) : ℚ) * w| :=
          abs_sub_le _ _ _
      _ ≤ 1/2 + 1/140737488355328 := add_le_add (abs_pyRound_sub_le _) herr

/-- Over the factor caps and the shipped weight range, the final score
lies in [0, 117]. -/
lemma pyRound_floatRound53_bounds {R : ℕ} {w : ℚ} (hR : R ≤ 90)
    (hw1 : 3602879701896397/4503599627370496 ≤ w)
    (hw2 : w ≤ 5854679515581645/4503599627370496) :
    0 ≤ pyRound (floatRound53 (((R : ℕ) : ℚ) * w)) ∧
    pyRound (floatRound53 (((R : ℕ) : ℚ) * w)) ≤ 117 := by
  have hwpos : (0:ℚ) < w := lt_of_lt_of_le (by norm_num) hw1
  constructor
  · exact pyRound_nonneg (floatRound53_nonneg (mul_nonneg (Nat.cast_nonneg _) hwpos.le))
  · have hclose := pyRound_floatRound53_close hR hw1 hw2
    have hqle : ((R : ℕ) : ℚ) * w ≤ 90 * (5854679515581645/4503599627370496) :=
      mul_le_mul (by exact_mod_cast hR) hw2 hwpos.le (by norm_num)
    have hCb : 90 * (5854679515581645/4503599627370496 : ℚ)
        + (1/2 + 1/140737488355328) < 118 := by norm_num
    have hup := (abs_le.mp hclose).2
    have hlt : ((pyRound (floatRound53 (((R : ℕ) : ℚ) * w)) : ℤ) : ℚ) < 118 := by
      linarith
    have : pyRound (floatRound53 (((R : ℕ) : ℚ) * w)) < 118 := by exact_mod_cast hlt
    omega

/-- Counterexample to C3 as stated: with rating 2.5, 15 reviews, 30%
unanswered, no recent negative and category "Restaurant" the raw score
is 55. The program multiplies in double precision and rounds
(55 * 1.1 evaluates to the double 60.50000000000001, which rounds to
61), whereas the exact product 55 × 1.1 = 60.5 rounds half-to-even
to 60: the final score is not the rounded exact product. -/
theorem c3_counterexample :
    (calculate_lead_score (5/2) 15 30 999 "Restaurant").2.raw = 55 ∧
    (calculate_lead_score (5/2) 15 30 999 "Restaurant").1 = 61 ∧
    pyRound ((55 : ℚ) * (11/10)) = 60 ∧
    (61 : ℤ) ≠ 60 := by
  have hraw : (calculate_lead_score (5/2) 15 30 999 "Restaurant").2.raw = 55 := by
    show faktor1_antwort 30 + faktor2_rating (5/2) 15 + faktor3_volumen 15
        + faktor4_aktualitaet 999 = 55
    norm_num [faktor1_antwort, faktor2_rating, faktor3_volumen, faktor4_aktualitaet]
  refine ⟨hraw, ?_, ?_, by decide⟩
  · have hlk : (BRANCH_FACTORS.lookup "Restaurant").getD 1
        = (2476979795053773/2251799813685248 : ℚ) := rfl
    have key : (calculate_lead_score (5/2) 15 30 999 "Restaurant").1
        = pyRound (floatRound53
            (((calculate_lead_score (5/2) 15 30 999 "Restaurant").2.raw : ℚ)
              * (BRANCH_FACTORS.lookup "Restaurant").getD 1)) := rfl
    rw [key, hraw, hlk]
    have hq : ((55 : ℕ) : ℚ) * (2476979795053773/2251799813685248)
        = 136233888727957515/2251799813685248 := by norm_num
    rw [hq]
    have hfr : floatRound53 (136233888727957515/2251799813685248 : ℚ)
        = (8514618045497345 : ℚ) / 140737488355328 := by
      rw [floatRound53_eval (E := 5) (by norm_num) (by norm_num) (by norm_num)]
      rw [show (5:ℤ) - 52 = -47 by norm_num, zpow_neg, div_eq_mul_inv, inv_inv]
      rw [show ((47:ℤ)) = ((47:ℕ):ℤ) by norm_num, zpow_natCast]
      rw [show (136233888727957515/2251799813685248 : ℚ) * 2 ^ (47:ℕ)
          = 136233888727957515/16 by norm_num]
      rw [show pyRound (136233888727957515/16 : ℚ) = 8514618045497345 by
        norm_num [pyRound, Int.fract]]
      norm_num
    rw [hfr]
    norm_num [pyRound, Int.fract]
  · norm_num [pyRound, Int.fract]

/-- C3 amended: the final score is the raw score (the sum of the four
factors) multiplied by the industry weight looked up in `BRANCH_FACTORS`
(defaulting to 1.0 for unknown categories) in IEEE double precision and
then rounded to the nearest integer by Python `round` (half to even);
the result is within 1/2 + 2^-47 of the exact product raw × weight
(the 2^-47 slack coming from the double multiplication); an unknown
category leaves the raw score exactly unchanged. -/
theorem c3_final_is_weighted_rounded_raw (rating : ℚ) (review_count : ℕ)
    (unanswered_pct : ℚ) (last_negative_days : ℤ) (branche : String) :
    ((calculate_lead_score rating review_count unanswered_pct
        last_negative_days branche).2.raw
      = (calculate_lead_score rating review_count unanswered_pct
          last_negative_days branche).2.antwort
        + (calculate_lead_score rating review_count unanswered_pct
            last_negative_days branche).2.rating
        + (calculate_lead_score rating review_count unanswered_pct
            last_negative_days branche).2.volumen
        + (calculate_lead_score rating review_count unanswered_pct
            last_negative_days branche).2.aktualitaet) ∧
    ((calculate_lead_score rating review_count unanswered_pct
        last_negative_days branche).2.factor
      = (BRANCH_FACTORS.lookup branche).getD 1) ∧
    ((calculate_lead_score rating review_count unanswered_pct
        last_negative_days branche).1
      = (calculate_lead_score rating review_count unanswered_pct
          last_negative_days branche).2.final) ∧
    ((calculate_lead_score rating review_count unanswered_pct
        last_negative_days branche).2.final
      = pyRound (floatRound53
          (((calculate_lead_score rating review_count unanswered_pct
              last_negative_days branche).2.raw : ℚ)
            * (calculate_lead_score rating review_count unanswered_pct
                last_negative_days branche).2.factor))) ∧
    (|((calculate_lead_score rating review_count unanswered_pct
          last_negative_days branche).2.final : ℚ)
        - ((calculate_lead_score rating review_count unanswered_pct
              last_negative_days branche).2.raw : ℚ)
          * (calculate_lead_score rating review_count unanswered_pct
              last_negative_days branche).2.factor|
      ≤ 1/2 + 1/140737488355328) ∧
    (BRANCH_FACTORS.lookup branche = none →
      (calculate_lead_score rating review_count unanswered_pct
          last_negative_days branche).2.final
        = ((calculate_lead_score rating review_count unanswered_pct
              last_negative_days branche).2.raw : ℤ)) := by
  have hraw90 : (calculate_lead_score rating review_count unanswered_pct
      last_negative_days branche).2.raw ≤ 90 := by
    have e : (calculate_lead_score rating review_count unanswered_pct
        last_negative_days branche).2.raw
        = faktor1_antwort unanswered_pct + faktor2_rating rating review_count
          + faktor3_volumen review_count + faktor4_aktualitaet last_negative_days := rfl
    have h1 := faktor1_le_cap unanswered_pct
    have h2 := faktor2_le_cap rating review_count
    have h3 := faktor3_le_cap review_count
    have h4 := faktor4_le_cap last_negative_days
    omega
  have hw := branch_factor_bounds branche
  refine ⟨rfl, rfl, rfl, rfl, ?_, ?_⟩
  · exact pyRound_floatRound53_close hraw90 hw.1 hw.2
  · intro h
    have hfin : (calculate_lead_score rating review_count unanswered_pct
        last_negative_days branche).2.final
        = pyRound (floatRound53
            (((calculate_lead_score rating review_count unanswered_pct
                last_negative_days branche).2.raw : ℚ)
              * (BRANCH_FACTORS.lookup branche).getD 1)) := rfl
    rw [hfin, h]
    simp only [Option.getD_none, mul_one]
    rw [floatRound53_natCast _ (le_trans hraw90 (by norm_num))]
    exact pyRound_natCast _

/-- Witness for C3 at the unknown category "Unbekannt": the lookup
misses and the final score equals the raw score. -/
theorem c3_final_is_weighted_rounded_raw_witness :
    BRANCH_FACTORS.lookup "Unbekannt" = none ∧
    (calculate_lead_score (16/5) 45 80 5 "Unbekannt").2.final
      = ((calculate_lead_score (16/5) 45 80 5 "Unbekannt").2.raw : ℤ) := by
  have h : BRANCH_FACTORS.lookup "Unbekannt" = none := by decide
  exact ⟨h, (c3_final_is_weighted_rounded_raw (16/5) 45 80 5 "Unbekannt").2.2.2.2.2 h⟩

/-! ### Claim C4: monotonicity in the unanswered percentage -/

lemma faktor1_mono {p1 p2 : ℚ} (h0 : 0 ≤ p1) (h12 : p1 ≤ p2) :
    faktor1_antwort p1 ≤ faktor1_antwort p2 := by
  rcases eq_or_lt_of_le h0 with h | h
  · rw [← h]
    simp [faktor1_antwort]
  · have hp2 : (0:ℚ) < p2 := lt_of_lt_of_le h h12
    unfold faktor1_antwort
    rw [if_neg (ne_of_gt h), if_neg (ne_of_gt hp2)]
    split_ifs <;> first | omega | (exfalso; linarith)

/-- C4: fixing rating, review count, recency and industry, the final
score is monotone non-decreasing in the unanswered percentage over
[0,100]: the response factor is monotone, the weight is positive, and
both the double multiplication and Python round are monotone. -/
theorem c4_monotone_in_unanswered (rating : ℚ) (review_count : ℕ)
    (last_negative_days : ℤ) (branche : String) (p1 p2 : ℚ)
    (h0 : 0 ≤ p1) (h12 : p1 ≤ p2) (h100 : p2 ≤ 100) :
    (calculate_lead_score rating review_count p1 last_negative_days branche).1
      ≤ (calculate_lead_score rating review_count p2 last_negative_days branche).1 := by
  have hf1 : faktor1_antwort p1 ≤ faktor1_antwort p2 := faktor1_mono h0 h12
  have hfac := branch_factor_bounds branche
  have hwpos : (0:ℚ) < (BRANCH_FACTORS.lookup branche).getD 1 :=
    lt_of_lt_of_le (by norm_num) hfac.1
  show pyRound (floatRound53 _) ≤ pyRound (floatRound53 _)
  apply pyRound_mono
  apply floatRound53_mono (mul_nonneg (Nat.cast_nonneg _) hwpos.le)
  apply mul_le_mul_of_nonneg_right _ hwpos.le
  have hsum : faktor1_antwort p1 + faktor2_rating rating review_count
      + faktor3_volumen review_count + faktor4_aktualitaet last_negative_days
      ≤ faktor1_antwort p2 + faktor2_rating rating review_count
      + faktor3_volumen review_count + faktor4_aktualitaet last_negative_days := by
    omega
  exact_mod_cast hsum

/-- Witness for C4: raising the unanswered percentage from 10 to 80. -/
theorem c4_monotone_in_unanswered_witness :
    ((0:ℚ) ≤ 10) ∧ ((10:ℚ) ≤ 80) ∧ ((80:ℚ) ≤ 100) ∧
    (calculate_lead_score 4 20 10 999 "Friseur").1
      ≤ (calculate_lead_score 4 20 80 999 "Friseur").1 :=
  ⟨by norm_num, by norm_num, by norm_num,
    c4_monotone_in_unanswered 4 20 999 "Friseur" 10 80
      (by norm_num) (by norm_num) (by norm_num)⟩

/-! ### Claim C8: summary invariants -/

/-- C8: for every review sequence the summary satisfies
answered + unanswered = total, the unanswered percentage lies in
[0,100], and for a positive total it equals
(total - answered) / total * 100. -/
theorem c8_summary_invariants (reviews : List ReviewRecord) :
    (analyze_reviews_outscraper reviews).answered
        + (analyze_reviews_outscraper reviews).unanswered
      = (analyze_reviews_outscraper reviews).total ∧
    0 ≤ (analyze_reviews_outscraper reviews).unanswered_pct ∧
    (analyze_reviews_outscraper reviews).unanswered_pct ≤ 100 ∧
    (0 < (analyze_reviews_outscraper reviews).total →
      (analyze_reviews_outscraper reviews).unanswered_pct
        = (((analyze_reviews_outscraper reviews).total : ℚ)
              - ((analyze_reviews_outscraper reviews).answered : ℚ))
            / ((analyze_reviews_outscraper reviews).total : ℚ) * 100) := by
  cases reviews with
  | nil =>
    refine ⟨rfl, ?_, ?_, ?_⟩
    · show (0:ℚ) ≤ 100; norm_num
    · show (100:ℚ) ≤ 100; norm_num
    · intro h
      exact absurd h (by decide)
  | cons r t =>
    have hform : analyze_reviews_outscraper (r :: t) =
        { total := (r :: t).length,
          answered := (r :: t).countP (fun x => x.owner_response),
          unanswered := (r :: t).length - (r :: t).countP (fun x => x.owner_response),
          unanswered_pct :=
            if 0 < (r :: t).length then
              (((r :: t).length - (r :: t).countP (fun x => x.owner_response) : ℕ) : ℚ)
                / ((r :: t).length : ℚ) * 100
            else 0,
          last_negative_days := (r :: t).foldl negUpdate 999 } := rfl
    have hc : (r :: t).countP (fun x => x.owner_response) ≤ (r :: t).length :=
      List.countP_le_length _
    have hlen : 0 < (r :: t).length := by simp
    have hlenQ : (0:ℚ) < ((r :: t).length : ℚ) := by exact_mod_cast hlen
    rw [hform]
    dsimp only
    refine ⟨by omega, ?_, ?_, ?_⟩
    · show (0:ℚ) ≤ if 0 < (r :: t).length then _ else 0
      rw [if_pos hlen]
      apply mul_nonneg (div_nonneg (Nat.cast_nonneg _) (Nat.cast_nonneg _))
      norm_num
    · show (if 0 < (r :: t).length then _ else 0) ≤ (100:ℚ)
      rw [if_pos hlen]
      have hsub : (((r :: t).length - (r :: t).countP (fun x => x.owner_response) : ℕ) : ℚ)
          ≤ ((r :: t).length : ℚ) := Nat.cast_le.mpr (Nat.sub_le _ _)
      have hdiv : (((r :: t).length - (r :: t).countP (fun x => x.owner_response) : ℕ) : ℚ)
          / ((r :: t).length : ℚ) ≤ 1 := (div_le_one hlenQ).mpr hsub
      calc _ ≤ (1:ℚ) * 100 := mul_le_mul_of_nonneg_right hdiv (by norm_num)
        _ = 100 := one_mul 100
    · intro _
      show (if 0 < (r :: t).length then _ else 0) = _
      rw [if_pos hlen, Nat.cast_sub hc]

/-- Witness for C8 on a two-review list with one answered review:
the total is positive and the percentage is (2 - 1)/2 * 100. -/
theorem c8_summary_invariants_witness :
    0 < (analyze_reviews_outscraper
        [{ owner_response := true, review_rating := some 5, review_days_ago := none },
         { owner_response := false, review_rating := some 5, review_days_ago := none }]).total ∧
    (analyze_reviews_outscraper
        [{ owner_response := true, review_rating := some 5, review_days_ago := none },
         { owner_response := false, review_rating := some 5, review_days_ago := none }]).unanswered_pct
      = (((analyze_reviews_outscraper
            [{ owner_response := true, review_rating := some 5, review_days_ago := none },
             { owner_response := false, review_rating := some 5, review_days_ago := none }]).total : ℚ)
            - ((analyze_reviews_outscraper
                  [{ owner_response := true, review_rating := some 5, review_days_ago := none },
                   { owner_response := false, review_rating := some 5, review_days_ago := none }]).answered : ℚ))
          / ((analyze_reviews_outscraper
                [{ owner_response := true, review_rating := some 5, review_days_ago := none },
                 { owner_response := false, review_rating := some 5, review_days_ago := none }]).total : ℚ) * 100 := by
  refine ⟨by decide, ?_⟩
  exact (c8_summary_invariants
    [{ owner_response := true, review_rating := some 5, review_days_ago := none },
     { owner_response := false, review_rating := some 5, review_days_ago := none }]).2.2.2 (by decide)

/-! ### Claim C9: unparseable timestamps are counted but skipped -/

lemma analyze_nonempty_fields (reviews : List ReviewRecord) (h : reviews ≠ []) :
    analyze_reviews_outscraper reviews =
      { total := reviews.length,
        answered := reviews.countP (fun x => x.owner_response),
        unanswered := reviews.length - reviews.countP (fun x => x.owner_response),
        unanswered_pct :=
          if 0 < reviews.length then
            ((reviews.length - reviews.countP (fun x => x.owner_response) : ℕ) : ℚ)
              / (reviews.length : ℚ) * 100
          else 0,
        last_negative_days := reviews.foldl negUpdate 999 } := by
  cases reviews with
  | nil => exact absurd rfl h
  | cons a t => rfl

/-- C9: the aggregator is a total function (it is defined for every
review list), and a record whose timestamp did not parse
(review_days_ago = none) is still counted in the total and, when it
carries an owner response, in the answered count, while the
last-negative-days result is exactly the one computed without that
record. -/
theorem c9_unparseable_counted_but_skipped (l₁ l₂ : List ReviewRecord)
    (r : ReviewRecord) (h : r.review_days_ago = none) :
    (analyze_reviews_outscraper (l₁ ++ r :: l₂)).total = (l₁ ++ l₂).length + 1 ∧
    (analyze_reviews_outscraper (l₁ ++ r :: l₂)).answered
      = (l₁ ++ l₂).countP (fun x => x.owner_response)
        + (if r.owner_response then 1 else 0) ∧
    (analyze_reviews_outscraper (l₁ ++ r :: l₂)).last_negative_days
      = (analyze_reviews_outscraper (l₁ ++ l₂)).last_negative_days := by
  have hne : l₁ ++ r :: l₂ ≠ [] := by simp
  rw [analyze_nonempty_fields _ hne]
  dsimp only
  refine ⟨?_, ?_, ?_⟩
  · simp [List.length_append]
    omega
  · rw [List.countP_append, List.countP_cons, List.countP_append]
    cases hresp : r.owner_response <;> simp [hresp] <;> omega
  · rw [analyze_last]
    have hr : negUpdate (l₁.foldl negUpdate 999) r = l₁.foldl negUpdate 999 :=
      negUpdate_of_none _ r (by simp [h])
    rw [List.foldl_append, List.foldl_cons, hr, List.foldl_append]

/-- Witness for C9: a two-record list whose second record has an
unparseable timestamp; it is counted in total and answered, and the
recency result equals that of the list without it. -/
theorem c9_unparseable_counted_but_skipped_witness :
    (({ owner_response := true, review_rating := some 2, review_days_ago := none }
        : ReviewRecord).review_days_ago = none) ∧
    (analyze_reviews_outscraper
        [{ owner_response := true, review_rating := some 1, review_days_ago := some 3 },
         { owner_response := true, review_rating := some 2, review_days_ago := none }]).total = 2 ∧
    (analyze_reviews_outscraper
        [{ owner_response := true, review_rating := some 1, review_days_ago := some 3 },
         { owner_response := true, review_rating := some 2, review_days_ago := none }]).answered = 2 ∧
    (analyze_reviews_outscraper
        [{ owner_response := true, review_rating := some 1, review_days_ago := some 3 },
         { owner_response := true, review_rating := some 2, review_days_ago := none }]).last_negative_days
      = (analyze_reviews_outscraper
          [{ owner_response := true, review_rating := some 1, review_days_ago := some 3 }]).last_negative_days := by
  have h := c9_unparseable_counted_but_skipped
    [{ owner_response := true, review_rating := some 1, review_days_ago := some 3 }] []
    { owner_response := true, review_rating := some 2, review_days_ago := none } rfl
  refine ⟨rfl, ?_, ?_, ?_⟩
  · simpa using h.1
  · simpa using h.2.1
  · simpa using h.2.2

/-! ### Claim C2: the last-negative-days value -/

/-- Counterexample to C2 as stated: a single negative review whose
parseable timestamp lies 1500 whole days in the past. The minimum
elapsed-days value over the negative reviews with a usable timestamp is
1500, but the aggregator reports 999 (the accumulator starts at the
sentinel 999 and only ever decreases), which is neither that minimum nor
distinguishable from the no-negative-review sentinel. -/
theorem c2_counterexample :
    parsedNegativeDays
        [{ owner_response := false, review_rating := some 2, review_days_ago := some 1500 }]
      = [1500] ∧
    (analyze_reviews_outscraper
        [{ owner_response := false, review_rating := some 2,
           review_days_ago := some 1500 }]).last_negative_days = 999 ∧
    (999 : ℤ) ≠ 1500 := by
  refine ⟨by decide, by decide, by decide⟩

/-- C2 amended: the reported last-negative-days value is the minimum of
the sentinel 999 and the elapsed-days values of the negative reviews
with a parseable timestamp (so an elapsed value of 999 or more collapses
into the sentinel); assuming no timestamp lies in the future (every
elapsed-days value is ≥ 0), the reported value is an integer in
[0, 999]. -/
theorem c2_last_negative_is_clamped_min (reviews : List ReviewRecord)
    (hpast : ∀ d ∈ parsedNegativeDays reviews, 0 ≤ d) :
    ((analyze_reviews_outscraper reviews).last_negative_days = 999 ∨
      (analyze_reviews_outscraper reviews).last_negative_days
        ∈ parsedNegativeDays reviews) ∧
    (∀ d ∈ parsedNegativeDays reviews,
      (analyze_reviews_outscraper reviews).last_negative_days ≤ d) ∧
    (analyze_reviews_outscraper reviews).last_negative_days ≤ 999 ∧
    0 ≤ (analyze_reviews_outscraper reviews).last_negative_days := by
  rw [analyze_last, foldl_negUpdate_eq]
  refine ⟨foldl_min_eq_or_mem _ _, fun d hd => foldl_min_le_mem hd _,
    foldl_min_le_init _ _, ?_⟩
  rcases foldl_min_eq_or_mem (parsedNegativeDays reviews) 999 with h | h
  · rw [h]; norm_num
  · exact hpast _ h

/-- Witness for the amended C2 on a single negative review 5 days old. -/
theorem c2_last_negative_is_clamped_min_witness :
    (∀ d ∈ parsedNegativeDays
        [{ owner_response := false, review_rating := some 2, review_days_ago := some 5 }],
      0 ≤ d) ∧
    (((analyze_reviews_outscraper
          [{ owner_response := false, review_rating := some 2,
             review_days_ago := some 5 }]).last_negative_days = 999 ∨
        (analyze_reviews_outscraper
            [{ owner_response := false, review_rating := some 2,
               review_days_ago := some 5 }]).last_negative_days
          ∈ parsedNegativeDays
              [{ owner_response := false, review_rating := some 2,
                 review_days_ago := some 5 }]) ∧
      (∀ d ∈ parsedNegativeDays
          [{ owner_response := false, review_rating := some 2, review_days_ago := some 5 }],
        (analyze_reviews_outscraper
            [{ owner_response := false, review_rating := some 2,
               review_days_ago := some 5 }]).last_negative_days ≤ d) ∧
      (analyze_reviews_outscraper
          [{ owner_response := false, review_rating := some 2,
             review_days_ago := some 5 }]).last_negative_days ≤ 999 ∧
      0 ≤ (analyze_reviews_outscraper
          [{ owner_response := false, review_rating := some 2,
             review_days_ago := some 5 }]).last_negative_days) :=
  ⟨by decide,
    c2_last_negative_is_clamped_min
      [{ owner_response := false, review_rating := some 2, review_days_ago := some 5 }]
      (by decide)⟩

/-! ### Claim C10: hard bound 117 on the final score -/

/-- C10: the four factors are capped at 35, 25, 20 and 10, so the raw
score is at most 90. Every entry of the shipped table is at most the
double written 1.3 (5854679515581645 / 2^52, which exceeds 13/10 by less
than 2^-50), and an unknown category defaults to 1.0, so over all inputs
the final score - Python round of the double product - lies between 0
and 117 (= round(90 * 1.3)). -/
theorem c10_final_score_bounds (rating : ℚ) (review_count : ℕ)
    (unanswered_pct : ℚ) (last_negative_days : ℤ) (branche : String) :
    (∀ p ∈ BRANCH_FACTORS, p.2 ≤ 5854679515581645/4503599627370496) ∧
    ((5854679515581645/4503599627370496 : ℚ) < 13/10 + 1/1125899906842624) ∧
    (calculate_lead_score rating review_count unanswered_pct
        last_negative_days branche).2.raw ≤ 90 ∧
    0 ≤ (calculate_lead_score rating review_count unanswered_pct
        last_negative_days branche).1 ∧
    (calculate_lead_score rating review_count unanswered_pct
        last_negative_days branche).1 ≤ 117 := by
  have hraw90 : (calculate_lead_score rating review_count unanswered_pct
      last_negative_days branche).2.raw ≤ 90 := by
    have e : (calculate_lead_score rating review_count unanswered_pct
        last_negative_days branche).2.raw
        = faktor1_antwort unanswered_pct + faktor2_rating rating review_count
          + faktor3_volumen review_count + faktor4_aktualitaet last_negative_days := rfl
    have h1 := faktor1_le_cap unanswered_pct
    have h2 := faktor2_le_cap rating review_count
    have h3 := faktor3_le_cap review_count
    have h4 := faktor4_le_cap last_negative_days
    omega
  have hw := branch_factor_bounds branche
  have hb := pyRound_floatRound53_bounds hraw90 hw.1 hw.2
  refine ⟨?_, by norm_num, hraw90, hb.1, hb.2⟩
  intro p hp
  fin_cases hp <;> norm_num
